import Mathlib

/-!
Verification development for the exam-paper builder (src/App.tsx).

The file gives a shallow embedding of the paper data model and of the
operations the specification talks about: the section setter
`updateSection`, the blueprint-to-builder transition `initializeBuilder`
(validation plus question-list reconciliation), the retrying generation
transport `callGemini`, the bulk-fill merge `executeMagicFill`, and the
section list operations `addSection` / `deleteSection`.  Machine numbers
in the source are plain JavaScript numbers used as non-negative integers,
embedded as `Nat`; JavaScript string falsiness on the metadata fields is
the test for the empty string.  Nondeterministic fresh question ids
(`Date.now() + Math.random()`) are embedded as an explicit id-supply
function.  The network and `JSON.parse` are embedded as explicit outcome
parameters, so every definition is executable.
-/

namespace Quetrix

/-- A question record, with the shape built in `initializeBuilder`:
id, text, option list, optional image payload, course-outcome tag `co`,
cognitive-level tag `bloom`. -/
structure Question where
  id : Nat
  text : String
  options : List String
  image : Option String
  co : String
  bloom : String
deriving DecidableEq

/-- A section record: stable id, title, description, type tag
("mcq" / "subjective" / "fillblank"), question count, attempt count,
marks per question, and the owned question list. -/
structure Section where
  id : Nat
  title : String
  desc : String
  type : String
  qCount : Nat
  attemptCount : Nat
  marksPerQ : Nat
  questions : List Question
deriving DecidableEq

/-- The field/value pairs that the UI passes to `updateSection`
(the dynamic `[field]: value` assignment, typed per field). -/
inductive SectionField where
  | title (v : String)
  | type (v : String)
  | qCount (v : Nat)
  | attemptCount (v : Nat)
  | marksPerQ (v : Nat)
deriving DecidableEq

/-- The `{ ...s, [field]: value }` spread assignment of `updateSection`. -/
def assignField (s : Section) : SectionField → Section
  | .title v => { s with title := v }
  | .type v => { s with type := v }
  | .qCount v => { s with qCount := v }
  | .attemptCount v => { s with attemptCount := v }
  | .marksPerQ v => { s with marksPerQ := v }

/-- Per-section body of `updateSection` (src/App.tsx lines 422-435):
after the spread assignment, an mcq section gets
`attemptCount = qCount`; otherwise a `qCount` assignment below the old
`attemptCount` clamps `attemptCount` down to the new value. -/
def updateSectionOne (s : Section) (f : SectionField) : Section :=
  let updated := assignField s f
  if updated.type = "mcq" then
    { updated with attemptCount := updated.qCount }
  else
    match f with
    | .qCount v => if v < s.attemptCount then { updated with attemptCount := v } else updated
    | _ => updated

/-- `updateSection` over the section list: the section with the given id
is rewritten by `updateSectionOne`, every other section is returned
unchanged. -/
def updateSection (sections : List Section) (id : Nat) (f : SectionField) : List Section :=
  sections.map fun s => if s.id ≠ id then s else updateSectionOne s f

/-- A non-mcq section as the UI creates it, used as the concrete input
refuting claim C1. -/
def sC1 : Section :=
  { id := 2, title := "Q2", desc := "Short Notes / Answer", type := "subjective",
    qCount := 4, attemptCount := 2, marksPerQ := 3, questions := [] }

/-- Exam metadata record (`defaultMeta` in src/App.tsx); every field is a
string, matching the form inputs that feed it. -/
structure Meta where
  universityName : String
  schoolName : String
  branch : String
  semester : String
  specializations : String
  academicYear : String
  examType : String
  courseCode : String
  courseName : String
  examDate : String
  startTime : String
  endTime : String
  instructions : String
deriving DecidableEq

/-- The `requiredFields` list of `initializeBuilder`, as (name, accessor)
pairs in source order. -/
def requiredFields : List (String × (Meta → String)) :=
  [("schoolName", Meta.schoolName), ("branch", Meta.branch), ("semester", Meta.semester),
   ("academicYear", Meta.academicYear), ("examType", Meta.examType),
   ("courseCode", Meta.courseCode), ("courseName", Meta.courseName),
   ("examDate", Meta.examDate), ("startTime", Meta.startTime), ("endTime", Meta.endTime),
   ("specializations", Meta.specializations)]

/-- `requiredFields.filter(field => !meta[field])`: a string-valued field
is JavaScript-falsy exactly when it is the empty string. -/
def missingFields (m : Meta) : List String :=
  (requiredFields.filter fun p => p.2 m = "").map Prod.fst

/-- The slice of component state that `initializeBuilder` reads or
writes: metadata, section list, active tab, active section id, and the
validation error banner. -/
structure AppState where
  meta : Meta
  sections : List Section
  activeTab : String
  activeSectionId : Nat
  validationError : Option String
deriving DecidableEq

/-- The question record pushed by `initializeBuilder` when a section's
question list is shorter than its `qCount`.  The nondeterministic
`Date.now() + Math.random()` id is supplied by the caller. -/
def newQuestion (fresh : Nat) (sectionType : String) : Question :=
  { id := fresh
    text := ""
    options :=
      if sectionType = "mcq" then ["Option A", "Option B", "Option C", "Option D"] else []
    image := none
    co := "CO1"
    bloom := "R" }

/-- Per-section reconciliation body of `initializeBuilder`: grow the
question list with fresh default questions while it is shorter than
`qCount`, truncate it from the end when longer, otherwise leave the
section untouched.  `ids i` is the id of the i-th appended question. -/
def reconcileSection (ids : Nat → Nat) (s : Section) : Section :=
  if s.questions.length < s.qCount then
    { s with questions :=
        s.questions
          ++ (List.range (s.qCount - s.questions.length)).map fun i => newQuestion (ids i) s.type }
  else if s.qCount < s.questions.length then
    { s with questions := s.questions.take s.qCount }
  else s

/-- `sections.map(section => ...)` of `initializeBuilder`, with the id
supply indexed by section position. -/
def reconcileAll (ids : Nat → Nat → Nat) : Nat → List Section → List Section
  | _, [] => []
  | j, s :: rest => reconcileSection (ids j) s :: reconcileAll ids (j + 1) rest

/-- The aggregate validation message of `initializeBuilder`. -/
def validationMessage : String := "Please fill in all required fields marked with *"

/-- `initializeBuilder` (src/App.tsx lines 447-488): if any required
metadata field is empty, set the validation error and change nothing
else; otherwise clear the error, reconcile every section, switch to the
builder tab, and repair the active section id if it no longer exists. -/
def initializeBuilder (ids : Nat → Nat → Nat) (st : AppState) : AppState :=
  if 0 < (missingFields st.meta).length then
    { st with validationError := some validationMessage }
  else
    let newSections := reconcileAll ids 0 st.sections
    { st with
      validationError := none
      sections := newSections
      activeTab := "builder"
      activeSectionId :=
        if newSections.any fun s => s.id = st.activeSectionId then st.activeSectionId
        else
          match newSections.head? with
          | some s => s.id
          | none => st.activeSectionId }

/-- A fully filled metadata record, used by concrete witnesses. -/
def demoMeta : Meta :=
  { universityName := "ITM (SLS) BARODA UNIVERSITY", schoolName := "SOCSET", branch := "CSE",
    semester := "5", specializations := "AI", academicYear := "2025-2026", examType := "MST",
    courseCode := "CS101", courseName := "Algorithms", examDate := "2026-01-10",
    startTime := "09:00", endTime := "10:30", instructions := "" }

/-- A concrete pre-existing question, used by concrete witnesses. -/
def demoQuestion : Question :=
  { id := 7, text := "What is X?", options := [], image := none, co := "CO2", bloom := "U" }

/-- A concrete valid state with one growing and one shrinking section. -/
def demoState : AppState :=
  { meta := demoMeta
    sections :=
      [{ id := 1, title := "Q1", desc := "Multiple Choice Questions", type := "mcq",
         qCount := 2, attemptCount := 2, marksPerQ := 1, questions := [demoQuestion] },
       { id := 2, title := "Q2", desc := "Short Notes / Answer", type := "subjective",
         qCount := 1, attemptCount := 1, marksPerQ := 3,
         questions := [demoQuestion, { demoQuestion with id := 8 }] }]
    activeTab := "blueprint"
    activeSectionId := 1
    validationError := none }

/-- A deterministic id supply for concrete witnesses. -/
def demoIds : Nat → Nat → Nat := fun j i => 100 + 10 * j + i

/-- A concrete state whose school name is empty, failing validation. -/
def invalidState : AppState :=
  { meta := { demoMeta with schoolName := "" }
    sections := demoState.sections
    activeTab := "blueprint"
    activeSectionId := 1
    validationError := none }

/-- The parse status of an HTTP response body at the generation-service
boundary: either not valid JSON (`response.json()` rejects), or JSON
carrying an optional nested candidate-text field
(`data.candidates?.[0]?.content?.parts?.[0]?.text`). -/
inductive Body where
  | notJson
  | json (candidateText : Option String)
deriving DecidableEq

/-- The environment's outcome of one fetch attempt: a transport-level
failure, or an HTTP response with a status code and a body. -/
inductive AttemptOutcome where
  | netErr
  | resp (status : Nat) (body : Body)
deriving DecidableEq

/-- The errors an attempt of `callGemini` can throw: a transport failure
(`fetch` rejected), the `API Error` thrown on a non-ok status, or the
rejection of `response.json()` on a non-JSON body. -/
inductive GeminiError where
  | transport
  | apiError (status : Nat)
  | parseError
deriving DecidableEq

/-- `response.ok`: the status lies in the 2xx success range. -/
def statusOk (status : Nat) : Bool := 200 ≤ status && status ≤ 299

/-- The body of one `callGemini` loop iteration: a non-ok status throws
`API Error`, a non-JSON body makes `response.json()` throw, and a JSON
body returns its candidate text, defaulting to the empty string when the
nested field is absent (the `|| ""` fallback). -/
def runAttempt : AttemptOutcome → Except GeminiError String
  | .netErr => .error .transport
  | .resp status body =>
    if statusOk status then
      match body with
      | .notJson => .error .parseError
      | .json t => .ok (t.getD "")
    else .error (.apiError status)

instance : DecidableEq (Except GeminiError String) := fun a b =>
  match a, b with
  | .ok x, .ok y => decidable_of_iff (x = y) (by simp)
  | .ok _, .error _ => isFalse (fun h => by cases h)
  | .error _, .ok _ => isFalse (fun h => by cases h)
  | .error x, .error y => decidable_of_iff (x = y) (by simp)

/-- What a run of `callGemini` did: the value returned or error thrown,
the backoff waits performed (milliseconds, in order), and the number of
fetch attempts made. -/
structure CallResult where
  result : Except GeminiError String
  waits : List Nat
  attemptsMade : Nat
deriving DecidableEq

/-- The backoff delay table of `callGemini`. -/
def delays : List Nat := [1000, 2000, 4000]

/-- The retry loop of `callGemini` (src/App.tsx lines 104-119), with the
remaining delay table as the loop state: a successful attempt ends the
loop at once; a failed attempt consumes one delay entry and retries, and
rethrows when the table is exhausted (`i === delays.length`). -/
def retryLoop (attempts : Nat → AttemptOutcome) : List Nat → Nat → CallResult
  | [], i =>
    match runAttempt (attempts i) with
    | .ok s => ⟨.ok s, [], 1⟩
    | .error e => ⟨.error e, [], 1⟩
  | d :: rest, i =>
    match runAttempt (attempts i) with
    | .ok s => ⟨.ok s, [], 1⟩
    | .error _ =>
      let r := retryLoop attempts rest (i + 1)
      ⟨r.result, d :: r.waits, r.attemptsMade + 1⟩

/-- `callGemini`: one initial attempt plus up to three retries driven by
the fixed delay table. -/
def callGemini (attempts : Nat → AttemptOutcome) : CallResult :=
  retryLoop attempts delays 0

/-- Whether an attempt returned a value rather than throwing. -/
def isSuccess : Except GeminiError String → Bool
  | .ok _ => true
  | .error _ => false

/-- One item of the structured bulk-fill reply: generated text plus the
optional options list, cognitive tag and outcome tag.  An absent field
is `none`. -/
structure GenItem where
  text : String
  options : Option (List String)
  bloom : Option String
  co : Option String
deriving DecidableEq

/-- The `x || d` fallback for an optional string field of the reply: the
default is used when the field is absent or empty (JavaScript
falsiness). -/
def orElseStr (v : Option String) (d : String) : String :=
  match v with
  | some s => if s = "" then d else s
  | none => d

/-- The merge of one reply item onto an existing question in
`executeMagicFill`: text is overwritten; options come from the item when
present (falling back to the existing options) on mcq sections and are
cleared otherwise; absent cognitive and outcome tags fall back to the
defaults "R" and "CO1". -/
def mergeQuestion (sectionType : String) (q : Question) (item : GenItem) : Question :=
  { q with
    text := item.text
    options := if sectionType = "mcq" then item.options.getD q.options else []
    bloom := orElseStr item.bloom "R"
    co := orElseStr item.co "CO1" }

/-- `s.questions.map((q, idx) => ...)` of `executeMagicFill`: question
`idx` is merged with reply item `idx` when that item exists and is left
unchanged otherwise. -/
def mergeFrom (sectionType : String) (data : List GenItem) : Nat → List Question → List Question
  | _, [] => []
  | idx, q :: qs =>
    (match data.get? idx with
     | some item => mergeQuestion sectionType q item
     | none => q) :: mergeFrom sectionType data (idx + 1) qs

/-- The per-section body of the bulk-fill merge. -/
def magicFillSection (data : List GenItem) (s : Section) : Section :=
  { s with questions := mergeFrom s.type data 0 s.questions }

/-- The `setSections` update of `executeMagicFill` when the reply parsed
as a list, and the unchanged list when parsing threw (the catch branch
only notifies the user). -/
def applyMagicFill (sections : List Section) (sectionId : Nat)
    (parsed : Option (List GenItem)) : List Section :=
  match parsed with
  | none => sections
  | some generatedData =>
    sections.map fun s =>
      if s.id ≠ sectionId then s else magicFillSection generatedData s

/-- The response sanitizer of `executeMagicFill`: strip fenced
code-block delimiters, then trim surrounding whitespace. -/
def sanitizeReply (raw : String) : String :=
  ((raw.replace "```json" "").replace "```" "").trim

/-- `executeMagicFill` with `JSON.parse` supplied as an explicit partial
parsing function: the raw reply is sanitized, parsed, and merged into
the target section; a parse failure changes nothing. -/
def executeMagicFill (parse : String → Option (List GenItem)) (sections : List Section)
    (sectionId : Nat) (raw : String) : List Section :=
  applyMagicFill sections sectionId (parse (sanitizeReply raw))

/-- `Math.max(0, ...sections.map(s => s.id))`. -/
def maxSectionId (sections : List Section) : Nat :=
  sections.foldl (fun m s => max m s.id) 0

/-- The id assigned by `addSection`: one plus the maximum existing id. -/
def newSectionId (sections : List Section) : Nat :=
  maxSectionId sections + 1

/-- `addSection` (src/App.tsx lines 406-420): append a fresh subjective
section carrying the next id and the default counts. -/
def addSection (sections : List Section) : List Section :=
  sections ++
    [{ id := newSectionId sections
       title := "Q" ++ toString (sections.length + 1)
       desc := "Subjective Questions"
       type := "subjective"
       qCount := 3
       attemptCount := 3
       marksPerQ := 5
       questions := [] }]

/-- `deleteSection`: remove the section with the given id unless it is
the last remaining section. -/
def deleteSection (sections : List Section) (id : Nat) : List Section :=
  if 1 < sections.length then sections.filter (fun s => s.id ≠ id) else sections

/-- A section-list operation: an add or a delete. -/
inductive SectionOp where
  | add
  | delete (id : Nat)
deriving DecidableEq

/-- Apply one section-list operation. -/
def applyOp (sections : List Section) : SectionOp → List Section
  | .add => addSection sections
  | .delete id => deleteSection sections id

/-- Apply a sequence of section-list operations, oldest first. -/
def applyOps (sections : List Section) (ops : List SectionOp) : List Section :=
  ops.foldl applyOp sections

/-- The two default sections of the component state
(`defaultSections` in src/App.tsx). -/
def defaultSections : List Section :=
  [{ id := 1, title := "Q1", desc := "Multiple Choice Questions", type := "mcq",
     qCount := 6, attemptCount := 6, marksPerQ := 1, questions := [] },
   { id := 2, title := "Q2", desc := "Short Notes / Answer", type := "subjective",
     qCount := 4, attemptCount := 2, marksPerQ := 3, questions := [] }]

/-- A concrete attempt environment failing twice and then answering. -/
def wAttempts : Nat → AttemptOutcome :=
  fun i => if i < 2 then AttemptOutcome.netErr
    else AttemptOutcome.resp 200 (Body.json (some "hello"))

/-- A question with non-default tags, target of the C7 counterexample. -/
def qC7 : Question :=
  { id := 9, text := "old text", options := [], image := none, co := "CO3", bloom := "E" }

/-- The section owning `qC7`. -/
def sC7 : Section :=
  { id := 4, title := "Q3", desc := "Short Notes / Answer", type := "subjective",
    qCount := 1, attemptCount := 1, marksPerQ := 5, questions := [qC7] }

/-- A reply item carrying text only: no tags and no options. -/
def itemC7 : GenItem := { text := "new text", options := none, bloom := none, co := none }

/-- C1 fails on the code: on a non-mcq section with `qCount = 4`,
setting `attemptCount` directly to 10 through the section setter is
stored unvalidated, so the resulting section has
`attemptCount = 10 > 4 = qCount`. -/
theorem updateSection_attemptCount_unclamped :
    ¬ ((updateSectionOne sC1 (SectionField.attemptCount 10)).attemptCount
        ≤ (updateSectionOne sC1 (SectionField.attemptCount 10)).qCount) := by
  decide

/-- C1 (amended): a single `updateSection` mutation preserves
`attemptCount ≤ qCount` provided it is not a direct `attemptCount`
assignment above the current `qCount`; in particular mcq sections always
leave with `attemptCount = qCount`, and `qCount` assignments clamp
`attemptCount` down.  A direct `attemptCount` assignment is the one
unvalidated mutation. -/
theorem updateSection_preserves_invariant (s : Section) (f : SectionField)
    (hs : s.attemptCount ≤ s.qCount)
    (hf : ∀ v, f = SectionField.attemptCount v → v ≤ s.qCount) :
    (updateSectionOne s f).attemptCount ≤ (updateSectionOne s f).qCount := by
  cases f <;>
    simp only [updateSectionOne, assignField] <;>
    split_ifs <;>
    simp_all

/-- Witness for C1's amended theorem at a concrete non-mcq section and a
`qCount` mutation. -/
theorem updateSection_preserves_invariant_witness :
    (updateSectionOne
        { id := 2, title := "Q2", desc := "Short Notes / Answer", type := "subjective",
          qCount := 4, attemptCount := 2, marksPerQ := 3, questions := [] }
        (SectionField.qCount 1)).attemptCount
      ≤ (updateSectionOne
          { id := 2, title := "Q2", desc := "Short Notes / Answer", type := "subjective",
            qCount := 4, attemptCount := 2, marksPerQ := 3, questions := [] }
          (SectionField.qCount 1)).qCount :=
  updateSection_preserves_invariant _ _ (by decide)
    (by intro v hv; cases hv)

/-- C2: any `updateSection` mutation whose resulting section has type
"mcq" leaves `attemptCount = qCount`; this covers setting the type to
mcq (forcing `attemptCount` to the current `qCount`) and changing
`qCount` while the type is mcq (forcing `attemptCount` to the new
`qCount`). -/
theorem updateSection_mcq_sync (s : Section) (f : SectionField)
    (h : (updateSectionOne s f).type = "mcq") :
    (updateSectionOne s f).attemptCount = (updateSectionOne s f).qCount := by
  cases f <;>
    simp only [updateSectionOne, assignField] at h ⊢ <;>
    split_ifs at h ⊢ <;>
    simp_all

/-- Witness for C2 at a concrete mcq section receiving a `qCount`
mutation. -/
theorem updateSection_mcq_sync_witness :
    (updateSectionOne
        { id := 1, title := "Q1", desc := "Multiple Choice Questions", type := "mcq",
          qCount := 6, attemptCount := 6, marksPerQ := 1, questions := [] }
        (SectionField.qCount 9)).attemptCount
      = (updateSectionOne
          { id := 1, title := "Q1", desc := "Multiple Choice Questions", type := "mcq",
            qCount := 6, attemptCount := 6, marksPerQ := 1, questions := [] }
          (SectionField.qCount 9)).qCount :=
  updateSection_mcq_sync _ _ (by decide)

theorem reconcileSection_eq (ids : Nat → Nat) (s : Section) :
    reconcileSection ids s =
      { s with questions :=
          s.questions.take s.qCount
            ++ (List.range (s.qCount - s.questions.length)).map
                fun i => newQuestion (ids i) s.type } := by
  unfold reconcileSection
  split_ifs with h1 h2
  · rw [List.take_of_length_le (le_of_lt h1)]
  · rw [Nat.sub_eq_zero_of_le (le_of_lt h2), List.range_zero, List.map_nil, List.append_nil]
  · have hq : s.qCount = s.questions.length := le_antisymm (not_lt.mp h1) (not_lt.mp h2)
    rw [hq, List.take_length, Nat.sub_self, List.range_zero, List.map_nil, List.append_nil, ← hq]

theorem reconcileSection_length (ids : Nat → Nat) (s : Section) :
    (reconcileSection ids s).questions.length = s.qCount := by
  rw [reconcileSection_eq]
  simp only [List.length_append, List.length_take, List.length_map, List.length_range]
  omega

theorem reconcileSection_of_reconciled (ids : Nat → Nat) (s : Section)
    (h : s.questions.length = s.qCount) : reconcileSection ids s = s := by
  unfold reconcileSection
  split_ifs with h1 h2
  · exact absurd h1 (by omega)
  · exact absurd h2 (by omega)
  · rfl

theorem reconcileSection_idem (ids ids2 : Nat → Nat) (s : Section) :
    reconcileSection ids2 (reconcileSection ids s) = reconcileSection ids s := by
  apply reconcileSection_of_reconciled
  rw [reconcileSection_length]
  rw [reconcileSection_eq]

theorem reconcileAll_get? (ids : Nat → Nat → Nat) :
    ∀ (l : List Section) (j i : Nat),
      (reconcileAll ids j l).get? i = (l.get? i).map fun s => reconcileSection (ids (j + i)) s := by
  intro l
  induction l with
  | nil => intro j i; simp [reconcileAll]
  | cons s rest ih =>
    intro j i
    cases i with
    | zero => simp [reconcileAll]
    | succ i =>
      simp only [reconcileAll, List.get?_cons_succ, ih (j + 1) i]
      have harith : j + 1 + i = j + (i + 1) := by omega
      rw [harith]

theorem reconcileAll_length (ids : Nat → Nat → Nat) :
    ∀ (l : List Section) (j : Nat), (reconcileAll ids j l).length = l.length := by
  intro l
  induction l with
  | nil => intro j; rfl
  | cons s rest ih => intro j; simp [reconcileAll, ih (j + 1)]

theorem initializeBuilder_sections (ids : Nat → Nat → Nat) (st : AppState)
    (h : missingFields st.meta = []) :
    (initializeBuilder ids st).sections = reconcileAll ids 0 st.sections := by
  simp [initializeBuilder, h]

theorem initializeBuilder_meta (ids : Nat → Nat → Nat) (st : AppState) :
    (initializeBuilder ids st).meta = st.meta := by
  unfold initializeBuilder
  split_ifs <;> rfl

/-- C3: on a successful blueprint-to-builder transition, every section's
question list becomes its old list truncated to `qCount` followed by
fresh default questions up to `qCount`; surviving questions keep their
identity and position, and every appended question carries the mcq
option template (empty otherwise), outcome tag "CO1" and the default
cognitive tag "R" (the source encoding of "Remember"). -/
theorem initializeBuilder_reconciles (ids : Nat → Nat → Nat) (st : AppState)
    (h : missingFields st.meta = []) :
    (initializeBuilder ids st).sections.length = st.sections.length
    ∧ (∀ fresh ty, (newQuestion fresh ty).options
          = (if ty = "mcq" then ["Option A", "Option B", "Option C", "Option D"] else [])
        ∧ (newQuestion fresh ty).co = "CO1"
        ∧ (newQuestion fresh ty).bloom = "R"
        ∧ (newQuestion fresh ty).text = "")
    ∧ ∀ j s, st.sections.get? j = some s →
        (initializeBuilder ids st).sections.get? j = some
          { s with questions :=
              s.questions.take s.qCount
                ++ (List.range (s.qCount - s.questions.length)).map
                    fun i => newQuestion (ids j i) s.type } := by
  have hsec : (initializeBuilder ids st).sections = reconcileAll ids 0 st.sections :=
    initializeBuilder_sections ids st h
  refine ⟨?_, ?_, ?_⟩
  · rw [hsec, reconcileAll_length]
  · intro fresh ty
    exact ⟨rfl, rfl, rfl, rfl⟩
  · intro j s hj
    rw [hsec, reconcileAll_get?, hj, Option.map_some', Nat.zero_add, reconcileSection_eq]

/-- Witness for C3 at a concrete valid state with one growing section
and one shrinking section. -/
theorem initializeBuilder_reconciles_witness :
    missingFields demoMeta = []
    ∧ (initializeBuilder demoIds demoState).sections.length = demoState.sections.length :=
  ⟨by decide, (initializeBuilder_reconciles demoIds demoState (by decide)).1⟩

/-- C4: reconciliation is idempotent: when the validation precondition
holds, running the blueprint-to-builder transition twice leaves exactly
the section lists (hence every question list) the first run produced. -/
theorem initializeBuilder_idempotent (ids ids2 : Nat → Nat → Nat) (st : AppState)
    (h : missingFields st.meta = []) :
    (initializeBuilder ids2 (initializeBuilder ids st)).sections
      = (initializeBuilder ids st).sections := by
  have h2 : missingFields (initializeBuilder ids st).meta = [] := by
    rw [initializeBuilder_meta, h]
  rw [initializeBuilder_sections ids2 (initializeBuilder ids st) h2,
    initializeBuilder_sections ids st h]
  apply List.ext_get?_iff.mpr
  intro n
  rw [reconcileAll_get?, reconcileAll_get?]
  cases hx : st.sections.get? n with
  | none => simp
  | some s => simp [reconcileSection_idem]

/-- Witness for C4 at the same concrete valid state. -/
theorem initializeBuilder_idempotent_witness :
    missingFields demoMeta = []
    ∧ (initializeBuilder demoIds (initializeBuilder demoIds demoState)).sections
        = (initializeBuilder demoIds demoState).sections :=
  ⟨by decide, initializeBuilder_idempotent demoIds demoIds demoState (by decide)⟩

/-- C5: the transition checks exactly the eleven required metadata
fields; if any of them is empty it fails with the single aggregate
validation message, leaving metadata, every section (hence every
question list) and the active tab unchanged. -/
theorem initializeBuilder_validation (ids : Nat → Nat → Nat) (st : AppState)
    (h : ∃ p ∈ requiredFields, p.2 st.meta = "") :
    requiredFields.map Prod.fst
        = ["schoolName", "branch", "semester", "academicYear", "examType", "courseCode",
           "courseName", "examDate", "startTime", "endTime", "specializations"]
    ∧ (initializeBuilder ids st).meta = st.meta
    ∧ (initializeBuilder ids st).sections = st.sections
    ∧ (initializeBuilder ids st).activeTab = st.activeTab
    ∧ (initializeBuilder ids st).validationError = some validationMessage := by
  obtain ⟨p, hp, he⟩ := h
  have hmem : p.1 ∈ missingFields st.meta := by
    apply List.mem_map_of_mem
    exact List.mem_filter.mpr ⟨hp, by simp [he]⟩
  have hpos : 0 < (missingFields st.meta).length :=
    List.length_pos.mpr (List.ne_nil_of_mem hmem)
  refine ⟨rfl, ?_, ?_, ?_, ?_⟩ <;> simp [initializeBuilder, hpos]

/-- Witness for C5 at a concrete state whose school name is empty. -/
theorem initializeBuilder_validation_witness :
    (∃ p ∈ requiredFields, p.2 invalidState.meta = "")
    ∧ (initializeBuilder demoIds invalidState).sections = invalidState.sections :=
  ⟨by decide, (initializeBuilder_validation demoIds invalidState (by decide)).2.2.1⟩

theorem retryLoop_attemptsMade_pos (a : Nat → AttemptOutcome) :
    ∀ (ds : List Nat) (i : Nat), 1 ≤ (retryLoop a ds i).attemptsMade := by
  intro ds i
  cases ds with
  | nil => cases h : runAttempt (a i) <;> simp [retryLoop, h]
  | cons d rest => cases h : runAttempt (a i) <;> simp [retryLoop, h]

theorem retryLoop_attemptsMade_le (a : Nat → AttemptOutcome) :
    ∀ (ds : List Nat) (i : Nat), (retryLoop a ds i).attemptsMade ≤ ds.length + 1 := by
  intro ds
  induction ds with
  | nil => intro i; cases h : runAttempt (a i) <;> simp [retryLoop, h]
  | cons d rest ih =>
    intro i
    cases h : runAttempt (a i) with
    | ok s => simp [retryLoop, h]
    | error e =>
      simp only [retryLoop, h, List.length_cons]
      have := ih (i + 1)
      omega

theorem retryLoop_waits_eq (a : Nat → AttemptOutcome) :
    ∀ (ds : List Nat) (i : Nat),
      (retryLoop a ds i).waits = ds.take ((retryLoop a ds i).attemptsMade - 1) := by
  intro ds
  induction ds with
  | nil => intro i; cases h : runAttempt (a i) <;> simp [retryLoop, h]
  | cons d rest ih =>
    intro i
    cases h : runAttempt (a i) with
    | ok s => simp [retryLoop, h]
    | error e =>
      simp only [retryLoop, h]
      obtain ⟨m, hm⟩ : ∃ m, (retryLoop a rest (i + 1)).attemptsMade = m + 1 :=
        ⟨(retryLoop a rest (i + 1)).attemptsMade - 1, by
          have := retryLoop_attemptsMade_pos a rest (i + 1); omega⟩
      have hw := ih (i + 1)
      rw [hm] at hw ⊢
      simp [List.take_succ_cons, hw]

theorem retryLoop_ok (a : Nat → AttemptOutcome) :
    ∀ (ds : List Nat) (i k : Nat) (s : String),
      k ≤ ds.length →
      (∀ j, j < k → isSuccess (runAttempt (a (i + j))) = false) →
      runAttempt (a (i + k)) = .ok s →
      retryLoop a ds i = ⟨.ok s, ds.take k, k + 1⟩ := by
  intro ds
  induction ds with
  | nil =>
    intro i k s hk hfail hok
    have hk0 : k = 0 := Nat.le_zero.mp hk
    subst hk0
    simp only [Nat.add_zero] at hok
    simp [retryLoop, hok]
  | cons d rest ih =>
    intro i k s hk hfail hok
    cases k with
    | zero =>
      simp only [Nat.add_zero] at hok
      simp [retryLoop, hok]
    | succ k =>
      have h0 : isSuccess (runAttempt (a i)) = false := by
        have := hfail 0 (Nat.succ_pos k)
        simpa using this
      obtain ⟨e, he⟩ : ∃ e, runAttempt (a i) = .error e := by
        cases hx : runAttempt (a i) with
        | ok s' => rw [hx] at h0; simp [isSuccess] at h0
        | error e => exact ⟨e, rfl⟩
      have ihr := ih (i + 1) k s (by simpa using hk)
        (fun j hj => by
          have := hfail (j + 1) (Nat.succ_lt_succ hj)
          simpa [show i + (j + 1) = i + 1 + j from by omega] using this)
        (by
          rw [show i + 1 + k = i + (k + 1) from by omega]
          exact hok)
      simp [retryLoop, he, ihr, List.take_succ_cons]

theorem retryLoop_err (a : Nat → AttemptOutcome) :
    ∀ (ds : List Nat) (i : Nat) (e : GeminiError),
      (∀ j, j < ds.length → isSuccess (runAttempt (a (i + j))) = false) →
      runAttempt (a (i + ds.length)) = .error e →
      retryLoop a ds i = ⟨.error e, ds, ds.length + 1⟩ := by
  intro ds
  induction ds with
  | nil =>
    intro i e _ he
    simp only [List.length_nil, Nat.add_zero] at he
    simp [retryLoop, he]
  | cons d rest ih =>
    intro i e hfail he
    have h0 : isSuccess (runAttempt (a i)) = false := by
      have := hfail 0 (by simp)
      simpa using this
    obtain ⟨e0, he0⟩ : ∃ e0, runAttempt (a i) = .error e0 := by
      cases hx : runAttempt (a i) with
      | ok s' => rw [hx] at h0; simp [isSuccess] at h0
      | error e0 => exact ⟨e0, rfl⟩
    have ihr := ih (i + 1) e
      (fun j hj => by
        have := hfail (j + 1) (by simpa using Nat.succ_lt_succ hj)
        simpa [show i + (j + 1) = i + 1 + j from by omega] using this)
      (by
        rw [show i + 1 + rest.length = i + (rest.length + 1) from by omega]
        simpa using he)
    simp [retryLoop, he0, ihr]

/-- C6 fails as stated: when every response carries HTTP status 200 but
a body that is not parseable JSON, every attempt has a success status,
yet the loop does not end at the first attempt with that attempt's
result: all four attempts are made and the parse error is thrown. -/
theorem callGemini_success_status_counterexample :
    statusOk 200 = true
    ∧ (callGemini fun _ => AttemptOutcome.resp 200 Body.notJson).attemptsMade = 4
    ∧ (callGemini fun _ => AttemptOutcome.resp 200 Body.notJson).result
        = Except.error GeminiError.parseError := by
  decide

/-- C6 (amended): the transport makes at most 4 attempts (1 initial + 3
retries); the waits performed are exactly the prefix of the 1000, 2000,
4000 ms table matching the failed attempts, in order; an attempt that
returns a value (success status together with a JSON body) after only
failed attempts ends the loop immediately with that value; and when all
four attempts fail, the fourth attempt's error is propagated to the
caller unmodified. -/
theorem callGemini_retry_policy (a : Nat → AttemptOutcome) :
    (callGemini a).attemptsMade ≤ 4
    ∧ (callGemini a).waits = delays.take ((callGemini a).attemptsMade - 1)
    ∧ (∀ k s, k ≤ 3 → (∀ j, j < k → isSuccess (runAttempt (a j)) = false) →
        runAttempt (a k) = .ok s →
        (callGemini a).result = .ok s ∧ (callGemini a).attemptsMade = k + 1
          ∧ (callGemini a).waits = delays.take k)
    ∧ (∀ e, (∀ j, j < 3 → isSuccess (runAttempt (a j)) = false) →
        runAttempt (a 3) = .error e →
        (callGemini a).result = .error e ∧ (callGemini a).attemptsMade = 4
          ∧ (callGemini a).waits = delays) := by
  refine ⟨?_, ?_, ?_, ?_⟩
  · have := retryLoop_attemptsMade_le a delays 0
    simpa [delays] using this
  · exact retryLoop_waits_eq a delays 0
  · intro k s hk hfail hok
    have h := retryLoop_ok a delays 0 k s (by simpa [delays] using hk)
      (fun j hj => by simpa using hfail j hj) (by simpa using hok)
    rw [callGemini, h]
    exact ⟨rfl, rfl, rfl⟩
  · intro e hfail he
    have h := retryLoop_err a delays 0 e
      (fun j hj => by
        have hj3 : j < 3 := by simpa [delays] using hj
        simpa using hfail j hj3)
      (by simpa [delays] using he)
    rw [callGemini, h]
    simp [delays]

/-- Witness for C6's amended theorem: two transport failures followed by
a successful third attempt yield the value after waits of 1000 and
2000 ms. -/
theorem callGemini_retry_policy_witness :
    (callGemini wAttempts).result = Except.ok "hello"
    ∧ (callGemini wAttempts).attemptsMade = 2 + 1
    ∧ (callGemini wAttempts).waits = delays.take 2 :=
  (callGemini_retry_policy wAttempts).2.2.1 2 "hello" (by decide) (by decide) (by decide)

/-- C9 fails as stated: a 200 response whose JSON body lacks the nested
candidate-text field is returned to the caller as a successful result
(the empty string) on the first attempt instead of being treated as an
attempt failure. -/
theorem callGemini_missing_field_counterexample :
    statusOk 200 = true
    ∧ (callGemini fun _ => AttemptOutcome.resp 200 (Body.json none)).result = Except.ok ""
    ∧ (callGemini fun _ => AttemptOutcome.resp 200 (Body.json none)).attemptsMade = 1 := by
  decide

/-- C9 (amended): at the attempt level, a transport failure, a non-2xx
status and a success-status response whose body is not parseable JSON
all throw (and a failed first attempt is retried), while a
success-status response with a JSON body returns the candidate text,
which is the empty string when the nested field is absent. -/
theorem runAttempt_classification (st : Nat) (body : Body) (t : Option String) :
    runAttempt AttemptOutcome.netErr = Except.error GeminiError.transport
    ∧ (statusOk st = false →
        runAttempt (AttemptOutcome.resp st body) = Except.error (GeminiError.apiError st))
    ∧ (statusOk st = true →
        runAttempt (AttemptOutcome.resp st Body.notJson) = Except.error GeminiError.parseError)
    ∧ (statusOk st = true →
        runAttempt (AttemptOutcome.resp st (Body.json t)) = Except.ok (t.getD ""))
    ∧ (∀ a : Nat → AttemptOutcome, isSuccess (runAttempt (a 0)) = false →
        2 ≤ (callGemini a).attemptsMade) := by
  refine ⟨rfl, ?_, ?_, ?_, ?_⟩
  · intro h; simp [runAttempt, h]
  · intro h; simp [runAttempt, h]
  · intro h; simp [runAttempt, h]
  · intro a h
    obtain ⟨e, he⟩ : ∃ e, runAttempt (a 0) = .error e := by
      cases hx : runAttempt (a 0) with
      | ok s' => rw [hx] at h; simp [isSuccess] at h
      | error e => exact ⟨e, rfl⟩
    have hpos := retryLoop_attemptsMade_pos a [2000, 4000] 1
    have hstep : (retryLoop a (1000 :: [2000, 4000]) 0).attemptsMade
        = (retryLoop a [2000, 4000] 1).attemptsMade + 1 := by
      simp [retryLoop, he]
    have hcg : (callGemini a).attemptsMade
        = (retryLoop a [2000, 4000] 1).attemptsMade + 1 := hstep
    omega

/-- Witness for C9's amended theorem at status 404 and a present
candidate text for status 200. -/
theorem runAttempt_classification_witness :
    runAttempt (AttemptOutcome.resp 404 (Body.json (some "x")))
        = Except.error (GeminiError.apiError 404)
    ∧ runAttempt (AttemptOutcome.resp 200 (Body.json (some "x"))) = Except.ok "x"
    ∧ 2 ≤ (callGemini fun _ => AttemptOutcome.netErr).attemptsMade :=
  ⟨(runAttempt_classification 404 (Body.json (some "x")) (some "x")).2.1 (by decide),
   (runAttempt_classification 200 (Body.json (some "x")) (some "x")).2.2.2.1 (by decide),
   (runAttempt_classification 200 (Body.json (some "x")) (some "x")).2.2.2.2
     (fun _ => AttemptOutcome.netErr) (by decide)⟩

theorem mergeFrom_length (ty : String) (data : List GenItem) :
    ∀ (qs : List Question) (idx : Nat), (mergeFrom ty data idx qs).length = qs.length := by
  intro qs
  induction qs with
  | nil => intro idx; rfl
  | cons q rest ih => intro idx; simp [mergeFrom, ih (idx + 1)]

theorem mergeFrom_get? (ty : String) (data : List GenItem) :
    ∀ (qs : List Question) (idx i : Nat),
      (mergeFrom ty data idx qs).get? i
        = (qs.get? i).map fun q =>
            match data.get? (idx + i) with
            | some item => mergeQuestion ty q item
            | none => q := by
  intro qs
  induction qs with
  | nil => intro idx i; simp [mergeFrom]
  | cons q rest ih =>
    intro idx i
    cases i with
    | zero => simp [mergeFrom]
    | succ i =>
      simp only [mergeFrom, List.get?_cons_succ, ih (idx + 1) i]
      rw [show idx + 1 + i = idx + (i + 1) from by omega]

/-- C7 fails as stated: merging a reply item that carries no cognitive
and no outcome tag onto a question whose tags are "E" and "CO3" does not
fall back to those existing values: both resulting tag fields differ
from the pre-merge ones (they are reset to the defaults "R" and
"CO1"). -/
theorem magicFill_fallback_counterexample :
    ((applyMagicFill [sC7] 4 (some [itemC7])).get? 0).map
        (fun s => (s.questions.get? 0).map Question.bloom) ≠ some (some qC7.bloom)
    ∧ ((applyMagicFill [sC7] 4 (some [itemC7])).get? 0).map
        (fun s => (s.questions.get? 0).map Question.co) ≠ some (some qC7.co)
    ∧ ((applyMagicFill [sC7] 4 (some [itemC7])).get? 0).map
        (fun s => (s.questions.get? 0).map Question.bloom) = some (some "R")
    ∧ ((applyMagicFill [sC7] 4 (some [itemC7])).get? 0).map
        (fun s => (s.questions.get? 0).map Question.co) = some (some "CO1") := by
  decide

/-- C7 (amended): when the reply parses as a list, item i is merged
positionally onto question i, and questions at indices beyond the reply
length are left unchanged; within a merge, a missing options field falls
back to the question's existing options on mcq sections (options are
cleared otherwise), while a missing cognitive tag becomes the default
"R" and a missing outcome tag the default "CO1" rather than the
question's existing values. -/
theorem executeMagicFill_merge (data : List GenItem) (s : Section) :
    (magicFillSection data s).questions.length = s.questions.length
    ∧ (∀ i, data.get? i = none →
        (magicFillSection data s).questions.get? i = s.questions.get? i)
    ∧ (∀ i item q, data.get? i = some item → s.questions.get? i = some q →
        (magicFillSection data s).questions.get? i = some (mergeQuestion s.type q item))
    ∧ (∀ q item, (mergeQuestion s.type q item).text = item.text
        ∧ (mergeQuestion s.type q item).options
            = (if s.type = "mcq" then item.options.getD q.options else [])
        ∧ (mergeQuestion s.type q item).bloom = orElseStr item.bloom "R"
        ∧ (mergeQuestion s.type q item).co = orElseStr item.co "CO1") := by
  refine ⟨mergeFrom_length s.type data s.questions 0, ?_, ?_, ?_⟩
  · intro i h
    have := mergeFrom_get? s.type data s.questions 0 i
    rw [Nat.zero_add] at this
    rw [magicFillSection] at *
    rw [this, h]
    cases s.questions.get? i <;> rfl
  · intro i item q hitem hq
    have := mergeFrom_get? s.type data s.questions 0 i
    rw [Nat.zero_add] at this
    rw [magicFillSection] at *
    rw [this, hitem, hq]
    rfl
  · intro q item
    exact ⟨rfl, rfl, rfl, rfl⟩

/-- Witness for C7's amended theorem: the tagless item merged onto the
concrete question gives exactly the merge record. -/
theorem executeMagicFill_merge_witness :
    [itemC7].get? 0 = some itemC7
    ∧ sC7.questions.get? 0 = some qC7
    ∧ (magicFillSection [itemC7] sC7).questions.get? 0
        = some (mergeQuestion sC7.type qC7 itemC7) :=
  ⟨by decide, by decide,
   (executeMagicFill_merge [itemC7] sC7).2.2.1 0 itemC7 qC7 (by decide) (by decide)⟩

/-- C8: a bulk-fill reply whose sanitized text fails to parse as
structured data leaves the whole section list - hence every question of
the target section - exactly as it was before the call: the failure
aborts the operation before any merge. -/
theorem executeMagicFill_parse_failure (parse : String → Option (List GenItem))
    (sections : List Section) (sectionId : Nat) (raw : String)
    (h : parse (sanitizeReply raw) = none) :
    executeMagicFill parse sections sectionId raw = sections := by
  unfold executeMagicFill
  rw [h]
  rfl

/-- Witness for C8 with a parser rejecting the concrete non-JSON
reply. -/
theorem executeMagicFill_parse_failure_witness :
    executeMagicFill (fun _ => none) [sC7] 4 "I could not generate questions." = [sC7] :=
  executeMagicFill_parse_failure (fun _ => none) [sC7] 4 "I could not generate questions." rfl

theorem foldl_max_bounds (l : List Section) :
    ∀ a : Nat, a ≤ l.foldl (fun m s => max m s.id) a
      ∧ ∀ s ∈ l, s.id ≤ l.foldl (fun m s => max m s.id) a := by
  induction l with
  | nil => intro a; exact ⟨le_refl _, by simp⟩
  | cons x rest ih =>
    intro a
    constructor
    · exact le_trans (le_max_left a x.id) (ih (max a x.id)).1
    · intro s hs
      rcases List.mem_cons.mp hs with h | h
      · subst h
        exact le_trans (le_max_right a s.id) (ih (max a s.id)).1
      · exact (ih (max a x.id)).2 s h

theorem id_lt_newSectionId (sections : List Section) :
    ∀ s ∈ sections, s.id < newSectionId sections := by
  intro s hs
  have h := (foldl_max_bounds sections 0).2 s hs
  unfold newSectionId maxSectionId
  omega

theorem applyOp_nodup (sections : List Section) (op : SectionOp)
    (h : (sections.map Section.id).Nodup) :
    ((applyOp sections op).map Section.id).Nodup := by
  cases op with
  | add =>
    simp only [applyOp, addSection, List.map_append, List.map_cons, List.map_nil]
    refine List.nodup_append.mpr ⟨h, List.nodup_singleton _, ?_⟩
    intro x hx hx2
    simp only [List.mem_singleton] at hx2
    subst hx2
    obtain ⟨s, hs, hsid⟩ := List.mem_map.mp hx
    have := id_lt_newSectionId sections s hs
    omega
  | delete id =>
    simp only [applyOp, deleteSection]
    split_ifs
    · exact List.Nodup.sublist ((sections.filter_sublist).map Section.id) h
    · exact h

theorem applyOps_nodup :
    ∀ (ops : List SectionOp) (sections : List Section),
      (sections.map Section.id).Nodup → ((applyOps sections ops).map Section.id).Nodup := by
  intro ops
  induction ops with
  | nil => intro sections h; exact h
  | cons op rest ih =>
    intro sections h
    exact ih (applyOp sections op) (applyOp_nodup sections op h)

/-- C10: `addSection` assigns one plus the maximum existing id (so 1 on
an empty list), which is strictly greater than every existing section
id; consequently every sequence of add and delete operations starting
from the default sections keeps all section ids pairwise distinct. -/
theorem addSection_fresh_ids :
    (∀ sections : List Section,
        newSectionId sections = maxSectionId sections + 1
        ∧ 1 ≤ newSectionId sections
        ∧ ∀ s ∈ sections, s.id < newSectionId sections)
    ∧ newSectionId [] = 1
    ∧ ∀ ops : List SectionOp, ((applyOps defaultSections ops).map Section.id).Nodup := by
  refine ⟨?_, rfl, ?_⟩
  · intro sections
    exact ⟨rfl, Nat.succ_le_succ (Nat.zero_le _), id_lt_newSectionId sections⟩
  · intro ops
    exact applyOps_nodup ops defaultSections (by decide)

/-- Witness for C10: a concrete add/delete/add run keeps ids distinct,
and the first default section's id is below the freshly assigned id. -/
theorem addSection_fresh_ids_witness :
    ((applyOps defaultSections [SectionOp.add, SectionOp.delete 1, SectionOp.add]).map
        Section.id).Nodup
    ∧ ({ id := 1, title := "Q1", desc := "Multiple Choice Questions", type := "mcq",
         qCount := 6, attemptCount := 6, marksPerQ := 1, questions := [] } : Section).id
        < newSectionId defaultSections :=
  ⟨addSection_fresh_ids.2.2 [SectionOp.add, SectionOp.delete 1, SectionOp.add],
   (addSection_fresh_ids.1 defaultSections).2.2 _ (by decide)⟩

end Quetrix
